import Mathlib

/-!
# Pagination adapters (`stores.go`)

Shallow embedding of the two `Store` adapters of package `paging`
(`GORMStore` over a relational query builder, `MGOStore` over a document
store) together with an executable model of the two external collaborators
they forward to.

Conventions of the embedding

* Go's `int64` arguments are `Int`; `int(limit)` is the identity (64-bit `int`).
* A Go `error` result is `Option GoError`, `none` being `nil`.
* The destination container `items` is a reference (`Ref`) into the heap of
  the world; the store calls write the decoded records there.
* Everything outside the process (table or collection contents, failures of
  the server, the requests received so far) lives in `World`, threaded
  through every call. Methods with a pointer receiver also return the
  receiver after the call.
-/

namespace Paging

/-! ## Shared data model -/

/-- Go error values. `err` is an ordinary error; `errors` is the aggregate
`gorm.Errors` that the relational library builds when a handle collects more
than one error. -/
inductive GoError where
  | err (msg : String)
  | errors (msgs : List String)
  deriving DecidableEq, Repr

/-- One stored record (a table row or a document): field names with their
values. A field that is absent reads as `none` (SQL `NULL`, missing field). -/
abbrev Record := List (String × Int)

/-- The value of field `name` in record `r`. -/
def Record.field (r : Record) (name : String) : Option Int :=
  List.lookup name r

/-- A reference to a destination container (the `items interface{}` pointer). -/
abbrev Ref := Nat

/-- Modelled from the spec: the external store behind a handle (spec section 6).
`columns` are the columns of the table (a relational database rejects a
statement naming any other column; the document store has no schema and does
not read it), `records` are the rows or documents in the store's result
order, `faults` gives the outcome of the upcoming requests (`some msg` makes
that request fail with `msg`; past the end nothing fails), `log` is the list
of requests received so far and `heap` the contents of the destination
containers. -/
structure World (Req : Type) where
  columns : List String
  records : List Record
  faults : List (Option String)
  log : List Req
  heap : Ref → List Record

/-- The outcome of the `i`-th upcoming request (`none`: it does not fail). -/
def World.fault {Req : Type} (w : World Req) (i : Nat) : Option String :=
  w.faults.getD i none

/-- Issue request `r`: it is appended to the log and consumes the next fault. -/
def World.request {Req : Type} (w : World Req) (r : Req) : Option String × World Req :=
  (w.fault 0, { w with faults := w.faults.tail, log := w.log ++ [r] })

/-- Write `rows` into the destination container `out`. -/
def World.store {Req : Type} (w : World Req) (out : Ref) (rows : List Record) : World Req :=
  { w with heap := fun r => if r = out then rows else w.heap r }

/-! ## Model of the relational query builder (`gorm.DB`) -/

/-- A where condition as handed to the builder: query text and its single
bound argument. -/
abbrev Cond := String × Int

/-- Requests a relational handle sends to the database. -/
inductive SQLRequest where
  | find (conds : List Cond) (limit offset : Int)
  | count (conds : List Cond) (limit offset : Int)
  deriving DecidableEq, Repr

abbrev SQLWorld := World SQLRequest

/-- Modelled from the spec: the search state of a relational handle. `limit`
and `offset` use the library's sentinel: a negative value means unset. -/
structure Search where
  whereConditions : List Cond
  limit : Int
  offset : Int
  deriving DecidableEq, Repr

/-- Modelled from the spec: the relational query-session handle (`*gorm.DB`)
"providing limit/offset/where/find/count operations". Builder methods return
a modified copy and never change the handle they are called on; `Error` is
carried along by every copy. -/
structure DB where
  search : Search
  Error : Option GoError
  Value : Option Ref
  deriving DecidableEq, Repr

/-- A handle with no constraint, as obtained from opening a connection. -/
def DB.fresh : DB :=
  { search := { whereConditions := [], limit := -1, offset := -1 }, Error := none, Value := none }

/-- Modelled from the spec: `db.Limit(n)`. -/
def DB.Limit (db : DB) (n : Int) : DB :=
  { db with search := { db.search with limit := n } }

/-- Modelled from the spec: `db.Offset(n)`. -/
def DB.Offset (db : DB) (n : Int) : DB :=
  { db with search := { db.search with offset := n } }

/-- Modelled from the spec: `db.Where(query, arg)` adds one condition. -/
def DB.Where (db : DB) (query : String) (arg : Int) : DB :=
  { db with search := { db.search with whereConditions := db.search.whereConditions ++ [(query, arg)] } }

/-- The errors a handle holds (`GetErrors`). -/
def GoError.toList : Option GoError → List String
  | none => []
  | some (.err m) => [m]
  | some (.errors ms) => ms

/-- Modelled from the spec: `db.AddError(err)`. The first error is stored as
it is; a further, different error turns the field into the aggregate. -/
def DB.AddError (db : DB) (msg : String) : DB :=
  let errs := GoError.toList db.Error
  let errs := if msg ∈ errs then errs else errs ++ [msg]
  { db with Error := some (if 1 < errs.length then .errors errs else .err msg) }

/-! ### The where-clause fragment of the model database

The text of a condition is handed to the database, which lexes, parses and
evaluates it. The fragment covers comparisons (`>`, `<`, `>=`, `<=`, `=`, `<>`,
`!=`) between columns, integer literals and the bound argument `?`, combined
with `AND`, `OR`, `NOT` and parentheses. Any other text is a syntax error. -/

/-- Comparison operators of the where-clause fragment. -/
inductive CmpOp where
  | gt | lt | ge | le | eq | ne
  deriving DecidableEq, Repr

/-- Lexical tokens of the where-clause fragment. -/
inductive Token where
  | ident (name : String)
  | num (n : Nat)
  | arg
  | cmp (op : CmpOp)
  | kwAnd
  | kwOr
  | kwNot
  | lparen
  | rparen
  deriving DecidableEq, Repr

/-- An operand of a comparison: a column, an integer literal or the bound
argument `?`. -/
inductive Operand where
  | col (name : String)
  | lit (n : Int)
  | arg
  deriving DecidableEq, Repr

/-- A parsed where condition. -/
inductive Expr where
  | cmp (op : CmpOp) (a b : Operand)
  | and (a b : Expr)
  | or (a b : Expr)
  | not (a : Expr)
  deriving DecidableEq, Repr

/-- Decimal digits. -/
def isDigitChar (c : Char) : Bool :=
  decide (48 ≤ c.toNat ∧ c.toNat ≤ 57)

/-- Characters of identifiers, keywords and numbers: letters, digits, `_`. -/
def isWordChar (c : Char) : Bool :=
  decide (65 ≤ c.toNat ∧ c.toNat ≤ 90) || decide (97 ≤ c.toNat ∧ c.toNat ≤ 122)
    || isDigitChar c || decide (c = '_')

/-- Characters of comparison operators. -/
def isSymChar (c : Char) : Bool :=
  decide (c = '<') || decide (c = '>') || decide (c = '=') || decide (c = '!')

/-- Upper-case form of a letter (keywords are case-insensitive). -/
def upperChar (c : Char) : Char :=
  if 97 ≤ c.toNat ∧ c.toNat ≤ 122 then Char.ofNat (c.toNat - 32) else c

/-- Whether the word is one of the keywords `AND`, `OR`, `NOT`. -/
def isKeyword (w : List Char) : Bool :=
  decide (w.map upperChar ∈ ["AND".data, "OR".data, "NOT".data])

/-- The token of a word: a number, a keyword or an identifier; a word that
starts with a digit and is not a number is rejected. -/
def wordToken (w : List Char) : Option Token :=
  if w.all isDigitChar then some (.num (w.foldl (fun n c => 10 * n + (c.toNat - 48)) 0))
  else if (w.head?.map isDigitChar) = some true then none
  else if w.map upperChar = "AND".data then some .kwAnd
  else if w.map upperChar = "OR".data then some .kwOr
  else if w.map upperChar = "NOT".data then some .kwNot
  else some (.ident (String.mk w))

/-- The token of a run of operator characters. -/
def symToken (s : List Char) : Option Token :=
  if s = ">".data then some (.cmp .gt)
  else if s = "<".data then some (.cmp .lt)
  else if s = ">=".data then some (.cmp .ge)
  else if s = "<=".data then some (.cmp .le)
  else if s = "=".data then some (.cmp .eq)
  else if s = "<>".data then some (.cmp .ne)
  else if s = "!=".data then some (.cmp .ne)
  else none

/-- Put token `t` in front of the tokens of the rest of the text. -/
def consToken (t : Option Token) (rest : Option (List Token)) : Option (List Token) :=
  match t, rest with
  | some t, some ts => some (t :: ts)
  | _, _ => none

/-- Close the lexeme accumulated (in reverse) in `acc`. -/
def flush (acc : List Char) (rest : Option (List Token)) : Option (List Token) :=
  match acc with
  | [] => rest
  | _ :: _ =>
    consToken (if acc.all isWordChar then wordToken acc.reverse else symToken acc.reverse) rest

/-- The lexer: `acc` holds, in reverse, the characters of the word or operator
being read. Characters outside the fragment are rejected. -/
def lex : List Char → List Char → Option (List Token)
  | [], acc => flush acc (some [])
  | c :: cs, acc =>
    if isWordChar c then
      (if acc.all isWordChar then lex cs (c :: acc) else flush acc (lex cs [c]))
    else if isSymChar c then
      (if acc.all isSymChar then lex cs (c :: acc) else flush acc (lex cs [c]))
    else if c = ' ' then flush acc (lex cs [])
    else if c = '?' then flush acc (consToken (some .arg) (lex cs []))
    else if c = '(' then flush acc (consToken (some .lparen) (lex cs []))
    else if c = ')' then flush acc (consToken (some .rparen) (lex cs []))
    else none

/-- Precedence levels of the parser. -/
inductive Level where
  | or | and | not | prim
  deriving DecidableEq, Repr

/-- An operand token. -/
def operandOf : Token → Option Operand
  | .ident name => some (.col name)
  | .num n => some (.lit n)
  | .arg => some .arg
  | _ => none

/-- Recursive-descent parser with fuel: the expression at the given level at
the head of the tokens, and the tokens left. -/
def parseAt : Nat → Level → List Token → Option (Expr × List Token)
  | 0, _, _ => none
  | fuel + 1, .or, ts =>
    match parseAt fuel .and ts with
    | some (a, .kwOr :: rest) =>
      (match parseAt fuel .or rest with
       | some (b, rest2) => some (.or a b, rest2)
       | none => none)
    | r => r
  | fuel + 1, .and, ts =>
    match parseAt fuel .not ts with
    | some (a, .kwAnd :: rest) =>
      (match parseAt fuel .and rest with
       | some (b, rest2) => some (.and a b, rest2)
       | none => none)
    | r => r
  | fuel + 1, .not, ts =>
    match ts with
    | .kwNot :: rest =>
      (match parseAt fuel .not rest with
       | some (a, rest2) => some (.not a, rest2)
       | none => none)
    | _ => parseAt fuel .prim ts
  | fuel + 1, .prim, ts =>
    match ts with
    | .lparen :: rest =>
      (match parseAt fuel .or rest with
       | some (e, .rparen :: rest2) => some (e, rest2)
       | _ => none)
    | a :: .cmp op :: b :: rest =>
      (match operandOf a, operandOf b with
       | some x, some y => some (.cmp op x y, rest)
       | _, _ => none)
    | _ => none

/-- Parse the text of a where condition; `none` is a syntax error. -/
def parseWhere (text : String) : Option Expr :=
  match lex text.data [] with
  | some ts =>
    (match parseAt (4 * ts.length + 4) .or ts with
     | some (e, []) => some e
     | _ => none)
  | none => none

/-- Whether `name` is a plain column name: one identifier of the fragment
(letters, digits and `_`, not starting with a digit, not a keyword). -/
def isColumnName (name : String) : Bool :=
  match name.data with
  | [] => false
  | c :: cs => !isDigitChar c && (c :: cs).all isWordChar && !isKeyword (c :: cs)

/-- The columns an expression refers to. -/
def Operand.columns : Operand → List String
  | .col name => [name]
  | _ => []

/-- The number of bound arguments `?` of an operand. -/
def Operand.args : Operand → Nat
  | .arg => 1
  | _ => 0

/-- The columns an expression refers to. -/
def Expr.columns : Expr → List String
  | .cmp _ a b => a.columns ++ b.columns
  | .and a b => a.columns ++ b.columns
  | .or a b => a.columns ++ b.columns
  | .not a => a.columns

/-- The number of bound arguments `?` of an expression. -/
def Expr.args : Expr → Nat
  | .cmp _ a b => a.args + b.args
  | .and a b => a.args + b.args
  | .or a b => a.args + b.args
  | .not a => a.args

/-- The value of an operand in row `r` with bound argument `arg`; `none` is
SQL `NULL`. -/
def Operand.eval (r : Record) (arg : Int) : Operand → Option Int
  | .col name => r.field name
  | .lit n => some n
  | .arg => some arg

/-- Comparison of two integers. -/
def CmpOp.eval : CmpOp → Int → Int → Bool
  | .gt, x, y => decide (y < x)
  | .lt, x, y => decide (x < y)
  | .ge, x, y => decide (y ≤ x)
  | .le, x, y => decide (x ≤ y)
  | .eq, x, y => decide (x = y)
  | .ne, x, y => decide (x ≠ y)

/-- Three-valued conjunction (`none` is unknown). -/
def and3 : Option Bool → Option Bool → Option Bool
  | some false, _ => some false
  | _, some false => some false
  | some true, some true => some true
  | _, _ => none

/-- Three-valued disjunction (`none` is unknown). -/
def or3 : Option Bool → Option Bool → Option Bool
  | some true, _ => some true
  | _, some true => some true
  | some false, some false => some false
  | _, _ => none

/-- The truth value of an expression in row `r` with bound argument `arg`, in
SQL's three-valued logic: a comparison with `NULL` is unknown. -/
def Expr.eval (r : Record) (arg : Int) : Expr → Option Bool
  | .cmp op a b =>
    match a.eval r arg, b.eval r arg with
    | some x, some y => some (op.eval x y)
    | _, _ => none
  | .and a b => and3 (a.eval r arg) (b.eval r arg)
  | .or a b => or3 (a.eval r arg) (b.eval r arg)
  | .not a => (a.eval r arg).map (fun b => !b)

/-- Whether row `r` satisfies condition `c`: the text parses and evaluates to
true with the bound argument of the condition. -/
def condHolds (r : Record) (c : Cond) : Bool :=
  match parseWhere c.1 with
  | some e => e.eval r c.2 == some true
  | none => false

/-- Whether the database accepts condition `c` on a table with the given
columns: the text parses, has exactly one `?` for its one bound argument, and
names known columns only. -/
def condValid (columns : List String) (c : Cond) : Bool :=
  match parseWhere c.1 with
  | some e => decide (e.args = 1) && e.columns.all (fun name => decide (name ∈ columns))
  | none => false

/-- Rows matching every condition, in result order. -/
def sqlMatching (conds : List Cond) (rows : List Record) : List Record :=
  rows.filter (fun r => conds.all (condHolds r))

/-- SQL `LIMIT`/`OFFSET` as the relational library emits them: a negative
value (the sentinel `-1`) is left out of the statement, `LIMIT 0` selects no
row. -/
def sqlWindow {α : Type} (limit offset : Int) (rows : List α) : List α :=
  let rows := if 0 ≤ offset then rows.drop offset.toNat else rows
  if 0 ≤ limit then rows.take limit.toNat else rows

/-- Every condition is accepted by the database. -/
def condsValid (columns : List String) (conds : List Cond) : Bool :=
  conds.all (condValid columns)

/-- The message of the database for a statement it rejects (syntax error,
unknown column, wrong number of arguments). -/
def sqlRejected : String := "sql: statement rejected"

/-- The message of `Scan` when the count statement yields no row. -/
def sqlNoRows : String := "sql: no rows in result set"

/-- Modelled from the spec: `db.Find(out)`. One `find` request; on success the
selected rows replace the contents of `out`, on failure the error is added to
the returned handle and nothing is written. -/
def DB.Find (db : DB) (out : Ref) (w : SQLWorld) : DB × SQLWorld :=
  let s := db.search
  let r := w.request (.find s.whereConditions s.limit s.offset)
  let db := { db with Value := some out }
  match r.1 with
  | some msg => (db.AddError msg, r.2)
  | none =>
    if condsValid r.2.columns s.whereConditions then
      (db, r.2.store out (sqlWindow s.limit s.offset (sqlMatching s.whereConditions r.2.records)))
    else (db.AddError sqlRejected, r.2)

/-- Modelled from the spec: `db.Count(&value)`. One `count` request: the
statement `SELECT count(*)` yields a single row, to which the handle's limit
and offset still apply; `value` is overwritten on success only. -/
def DB.Count (db : DB) (value : Int) (w : SQLWorld) : DB × Int × SQLWorld :=
  let s := db.search
  let r := w.request (.count s.whereConditions s.limit s.offset)
  match r.1 with
  | some msg => (db.AddError msg, value, r.2)
  | none =>
    if condsValid r.2.columns s.whereConditions then
      match sqlWindow s.limit s.offset [((sqlMatching s.whereConditions r.2.records).length : Int)] with
      | n :: _ => (db, n, r.2)
      | [] => (db.AddError sqlNoRows, value, r.2)
    else (db.AddError sqlRejected, value, r.2)

/-! ## GORM store (`stores.go`, lines 26-77) -/

/-- GORMStore is the store for GORM ORM. -/
structure GORMStore where
  db : DB
  items : Ref
  deriving DecidableEq, Repr

/-- NewGORMStore returns a new GORM store instance (and a nil error). -/
def NewGORMStore (db : DB) (items : Ref) : GORMStore × Option GoError :=
  ({ db := db, items := items }, none)

/-- GetItems return the current result. -/
def GORMStore.GetItems (s : GORMStore) : Ref :=
  s.items

/-- PaginateOffset paginates items from the store. Result: `(count, error)`,
the receiver after the call, the world after the call. -/
def GORMStore.PaginateOffset (s : GORMStore) (limit offset : Int) (w : SQLWorld) :
    (Int × Option GoError) × GORMStore × SQLWorld :=
  let q := s.db
  let q := q.Limit limit
  let q := q.Offset offset
  let f := q.Find s.items w
  let q := f.1
  let q := q.Limit (-1)
  let q := q.Offset (-1)
  let count : Int := 0
  let c := q.Count count f.2
  match c.1.Error with
  | some err => ((c.2.1, some err), s, c.2.2)
  | none => ((c.2.1, none), s, c.2.2)

/-- PaginateCursor paginates items from the store for the cursor pagination
system; `fmt.Sprintf("%s < ?", fieldName)` is `fieldName ++ " < ?"`. Result: the
error, the receiver after the call, the world after it. -/
def GORMStore.PaginateCursor (s : GORMStore) (limit : Int) (cursor : Int) (fieldName : String)
    (reverse : Bool) (w : SQLWorld) : Option GoError × GORMStore × SQLWorld :=
  let q := s.db
  let q := q.Limit limit
  let q :=
    if reverse then q.Where (fieldName ++ " < ?") cursor
    else q.Where (fieldName ++ " > ?") cursor
  let f := q.Find s.items w
  (f.1.Error, s, f.2)

/-! ## Model of the document store (`mgo.Collection`, `mgo.Query`, `bson.M`) -/

/-- A value inside a filter document: a plain value (equality match) or a
nested operator document such as `bson.M{"$gt": cursor}`. -/
inductive BsonValue where
  | int (v : Int)
  | doc (ops : List (String × Int))
  deriving DecidableEq, Repr

/-- The generic key-value filter document type (`bson.M`, a Go map), as an
association list. -/
abbrev BsonM := List (String × BsonValue)

/-- Map read `m[k]`. -/
def BsonM.get (m : BsonM) (k : String) : Option BsonValue :=
  List.lookup k m

/-- Map assignment `m[k] = v`: any entry under `k` is replaced. -/
def BsonM.set (m : BsonM) (k : String) (v : BsonValue) : BsonM :=
  (k, v) :: m.filter (fun e => e.1 ≠ k)

/-- Whether value `v` satisfies the range operator `op` with operand `c`. -/
def opHolds (op : String) (c v : Int) : Bool :=
  if op = "$gt" then decide (c < v)
  else if op = "$lt" then decide (v < c)
  else if op = "$gte" then decide (c ≤ v)
  else if op = "$lte" then decide (v ≤ c)
  else false

/-- Whether record `r` satisfies the constraint stored under key `k`. -/
def valueMatches (r : Record) (k : String) : BsonValue → Bool
  | .int v => r.field k == some v
  | .doc ops =>
    match r.field k with
    | some v => ops.all (fun o => opHolds o.1 o.2 v)
    | none => false

/-- Whether record `r` matches the filter; the nil filter matches everything. -/
def matchesFilter (filter : Option BsonM) (r : Record) : Bool :=
  match filter with
  | none => true
  | some m => m.all (fun e => valueMatches r e.1 e.2)

/-- Documents of the collection matching the filter, in the store's order. -/
def mgoMatching (filter : Option BsonM) (docs : List Record) : List Record :=
  docs.filter (matchesFilter filter)

/-- The document store's skip and limit: skip drops leading documents; as in
MongoDB a limit of `0` is equivalent to setting no limit, and any other limit
`n` keeps `|n|` documents. -/
def mgoWindow {α : Type} (limit skip : Int) (docs : List α) : List α :=
  let docs := docs.drop skip.toNat
  if limit = 0 then docs else docs.take limit.natAbs

/-- Requests a document-store query sends to the server. -/
inductive MgoRequest where
  | find (filter : Option BsonM) (limit skip : Int)
  | count (filter : Option BsonM) (limit skip : Int)
  deriving DecidableEq, Repr

abbrev MgoWorld := World MgoRequest

/-- The document-store collection handle. -/
structure Collection where
  name : String
  deriving DecidableEq, Repr

/-- Modelled from the spec: a query prepared on a collection ("find/limit/
skip/all/count operations"). `Limit` and `Skip` change the query in place. -/
structure Query where
  collection : Collection
  query : Option BsonM
  limit : Int
  skip : Int
  deriving DecidableEq, Repr

/-- Modelled from the spec: `collection.Find(filter)` prepares a query, with no
limit and no skip; nothing is sent yet. -/
def Collection.Find (c : Collection) (filter : Option BsonM) : Query :=
  { collection := c, query := filter, limit := 0, skip := 0 }

/-- Modelled from the spec: `q.Limit(n)`. -/
def Query.Limit (q : Query) (n : Int) : Query :=
  { q with limit := n }

/-- Modelled from the spec: `q.Skip(n)`. -/
def Query.Skip (q : Query) (n : Int) : Query :=
  { q with skip := n }

/-- Modelled from the spec: `q.Count()`. One `count` request; the result is
`(n, err)` with `n = 0` when the request fails. -/
def Query.Count (q : Query) (w : MgoWorld) : (Int × Option GoError) × MgoWorld :=
  let r := w.request (.count q.query q.limit q.skip)
  match r.1 with
  | some msg => ((0, some (.err msg)), r.2)
  | none => ((((mgoWindow q.limit q.skip (mgoMatching q.query r.2.records)).length : Int), none), r.2)

/-- Modelled from the spec: `q.All(result)`. One `find` request; on success
the documents replace the contents of `result`, on failure nothing is written. -/
def Query.All (q : Query) (result : Ref) (w : MgoWorld) : Option GoError × MgoWorld :=
  let r := w.request (.find q.query q.limit q.skip)
  match r.1 with
  | some msg => (some (.err msg), r.2)
  | none => (none, r.2.store result (mgoWindow q.limit q.skip (mgoMatching q.query r.2.records)))

/-! ## Mongo store (`stores.go`, lines 83-129) -/

/-- MGOStore is the store for mongodb. `filter` is a Go map: `none` is the nil
map. -/
structure MGOStore where
  collection : Collection
  filter : Option BsonM
  items : Ref
  deriving DecidableEq, Repr

/-- NewMGOStore returns a new mongo store (and a nil error). -/
def NewMGOStore (collection : Collection) (items : Ref) (filter : Option BsonM) :
    MGOStore × Option GoError :=
  ({ collection := collection, filter := filter, items := items }, none)

/-- GetItems return the current result. -/
def MGOStore.GetItems (m : MGOStore) : Ref :=
  m.items

/-- PaginateOffset paginates items from the store. The error of `q.Count()` is
discarded (`recordCount, _ := q.Count()`). Result: `(count, error)`, the
receiver after the call, the world after the call. -/
def MGOStore.PaginateOffset (m : MGOStore) (limit offset : Int) (w : MgoWorld) :
    (Int × Option GoError) × MGOStore × MgoWorld :=
  let q := m.collection.Find m.filter
  let rc := q.Count w
  let recordCount := rc.1.1
  let c : Int := recordCount
  let q := q.Limit limit
  let q := q.Skip offset
  let a := q.All m.items rc.2
  ((c, a.1), m, a.2)

/-- PaginateCursor paginates items from the store for the cursor pagination
system. `none` is the run-time panic of Go on an assignment to an entry of a
nil map; otherwise the result is the error, the receiver after the call and
the world after it. -/
def MGOStore.PaginateCursor (m : MGOStore) (limit : Int) (cursor : Int) (fieldName : String)
    (reverse : Bool) (w : MgoWorld) : Option (Option GoError × MGOStore × MgoWorld) :=
  let operator := if reverse then "$lt" else "$gt"
  match m.filter with
  | none => none
  | some filter =>
    let m := { m with filter := some (filter.set fieldName (.doc [(operator, cursor)])) }
    let q := m.collection.Find m.filter
    let q := q.Limit limit
    let a := q.All m.items w
    some (a.1, m, a.2)

/-! ## Call sequences and example stores -/

/-- One call of a paginate method of the `Store` interface. -/
inductive Call where
  | offset (limit offset : Int)
  | cursor (limit cursor : Int) (fieldName : String) (reverse : Bool)
  deriving DecidableEq, Repr

/-- Perform one call on a GORM store: the receiver and the world afterwards. -/
def GORMStore.call (s : GORMStore) (c : Call) (w : SQLWorld) : GORMStore × SQLWorld :=
  match c with
  | .offset limit offset => (s.PaginateOffset limit offset w).2
  | .cursor limit cursor fieldName reverse => (s.PaginateCursor limit cursor fieldName reverse w).2

/-- Perform a sequence of calls on a GORM store. -/
def GORMStore.run (s : GORMStore) (w : SQLWorld) : List Call → GORMStore × SQLWorld
  | [] => (s, w)
  | c :: cs => GORMStore.run (s.call c w).1 (s.call c w).2 cs

/-- Perform one call on a mongo store; `none` when the call panics. -/
def MGOStore.call (m : MGOStore) (c : Call) (w : MgoWorld) : Option (MGOStore × MgoWorld) :=
  match c with
  | .offset limit offset => some (m.PaginateOffset limit offset w).2
  | .cursor limit cursor fieldName reverse =>
    match m.PaginateCursor limit cursor fieldName reverse w with
    | some r => some r.2
    | none => none

/-- Perform a sequence of calls on a mongo store; `none` when a call panics. -/
def MGOStore.run (m : MGOStore) (w : MgoWorld) : List Call → Option (MGOStore × MgoWorld)
  | [] => some (m, w)
  | c :: cs =>
    match m.call c w with
    | some r => MGOStore.run r.1 r.2 cs
    | none => none

/-- The texts of the where conditions of a request, without the bound arguments. -/
def SQLRequest.texts : SQLRequest → List String
  | .find conds _ _ => conds.map (fun c => c.1)
  | .count conds _ _ => conds.map (fun c => c.1)

/-- Whether field `name` of `r` is strictly greater than `cursor`. -/
def gtCursor (r : Record) (name : String) (cursor : Int) : Bool :=
  match r.field name with
  | some v => decide (cursor < v)
  | none => false

/-- The world after a successful `GORMStore.PaginateOffset`. -/
def offsetWorld (s : GORMStore) (limit offset : Int) (w : SQLWorld) : SQLWorld :=
  { columns := w.columns, records := w.records, faults := w.faults.tail.tail,
    log := w.log ++ [.find s.db.search.whereConditions limit offset,
                     .count s.db.search.whereConditions (-1) (-1)],
    heap := fun r => if r = s.items then
      sqlWindow limit offset (sqlMatching s.db.search.whereConditions w.records) else w.heap r }

/-- Records `{id: 1}, ..., {id: n}`. -/
def exampleRecords (n : Nat) : List Record :=
  (List.range n).map (fun i => [("id", (i : Int) + 1)])

/-- A relational store whose table has the single column `id` and holds
`exampleRecords n`, with the given faults. -/
def exampleSQLWorld (n : Nat) (faults : List (Option String)) : SQLWorld :=
  { columns := ["id"], records := exampleRecords n, faults := faults, log := [],
    heap := fun _ => [] }

/-- A collection holding `exampleRecords n`, with the given faults. -/
def exampleMgoWorld (n : Nat) (faults : List (Option String)) : MgoWorld :=
  { columns := ["id"], records := exampleRecords n, faults := faults, log := [],
    heap := fun _ => [] }

/-- A GORM store on an unconstrained handle, writing to container `7`. -/
def exampleGORMStore : GORMStore :=
  (NewGORMStore DB.fresh 7).1

/-- A mongo store with the empty filter `bson.M{}`, writing to container `7`. -/
def exampleMGOStore : MGOStore :=
  (NewMGOStore { name := "docs" } 7 (some [])).1

/-! ## Lemmas on the relational model -/

theorem lex_word (f rest acc : List Char) (hf : f.all isWordChar = true)
    (hacc : acc.all isWordChar = true) :
    lex (f ++ rest) acc = lex rest (f.reverse ++ acc) := by
  induction f generalizing acc with
  | nil => rfl
  | cons c cs ih =>
    simp only [List.all_cons, Bool.and_eq_true] at hf
    have h2 : (c :: acc).all isWordChar = true := by
      simp only [List.all_cons, hf.1, hacc, Bool.and_self]
    have e : lex (c :: (cs ++ rest)) acc = lex (cs ++ rest) (c :: acc) := by
      simp only [lex, hf.1, hacc, if_true]
    rw [List.cons_append, e, ih _ hf.2 h2]
    simp

theorem lex_gt_tail : lex " > ?".data [] = some [.cmp .gt, .arg] := by decide

theorem lex_lt_tail : lex " < ?".data [] = some [.cmp .lt, .arg] := by decide

theorem wordToken_columnName (f : String) (h : isColumnName f = true) :
    f.data ≠ [] ∧ f.data.all isWordChar = true ∧ wordToken f.data = some (.ident f) := by
  unfold isColumnName at h
  cases hd : f.data with
  | nil => simp [hd] at h
  | cons c cs =>
    simp only [hd, Bool.and_eq_true, Bool.not_eq_true'] at h
    obtain ⟨⟨h1, h2⟩, h3⟩ := h
    refine ⟨by simp, h2, ?_⟩
    have hk : ∀ k ∈ ["AND".data, "OR".data, "NOT".data], (c :: cs).map upperChar ≠ k := by
      intro k hk heq
      unfold isKeyword at h3
      rw [heq] at h3
      simp only [decide_eq_false_iff_not] at h3
      exact h3 hk
    have hname : String.mk (c :: cs) = f := by
      rw [← hd]
    unfold wordToken
    simp only [List.all_cons, h1, Bool.false_and, Bool.false_eq_true, if_false, List.head?_cons,
      Option.map_some', Option.some.injEq, hk _ (List.mem_cons_self _ _),
      hk "OR".data (by simp), hk "NOT".data (by simp), hname]

theorem lex_column_cmp (f : String) (tail : List Char) (ts : List Token)
    (h : isColumnName f = true) (hs : ∃ cs, tail = ' ' :: cs ∧ lex cs [] = some ts) :
    lex (f.data ++ tail) [] = some (.ident f :: ts) := by
  obtain ⟨hne, hall, hw⟩ := wordToken_columnName f h
  obtain ⟨cs, rfl, hcs⟩ := hs
  rw [lex_word f.data _ [] hall rfl]
  have hsp : isWordChar ' ' = false := by decide
  have hsp2 : isSymChar ' ' = false := by decide
  simp only [List.append_nil, lex, hsp, hsp2, Bool.false_eq_true, if_false, if_true, hcs]
  cases hr : f.data.reverse with
  | nil => simp at hr; exact absurd hr hne
  | cons a as =>
    have : (a :: as).all isWordChar = true := by
      rw [← hr, List.all_reverse]; exact hall
    simp only [flush, this, if_true, consToken]
    rw [← hr, List.reverse_reverse, hw]

theorem parseWhere_gt (f : String) (h : isColumnName f = true) :
    parseWhere (f ++ " > ?") = some (.cmp .gt (.col f) .arg) := by
  unfold parseWhere
  rw [String.data_append, lex_column_cmp f _ [.cmp .gt, .arg] h ⟨_, rfl, by decide⟩]
  rfl

theorem parseWhere_lt (f : String) (h : isColumnName f = true) :
    parseWhere (f ++ " < ?") = some (.cmp .lt (.col f) .arg) := by
  unfold parseWhere
  rw [String.data_append, lex_column_cmp f _ [.cmp .lt, .arg] h ⟨_, rfl, by decide⟩]
  rfl

theorem AddError_Error_ne_none (db : DB) (msg : String) : (db.AddError msg).Error ≠ none := by
  simp [DB.AddError]

theorem Find_search (db : DB) (out : Ref) (w : SQLWorld) : (db.Find out w).1.search = db.search := by
  unfold DB.Find
  dsimp only
  split
  · rfl
  · split <;> rfl

theorem Find_log (db : DB) (out : Ref) (w : SQLWorld) :
    (db.Find out w).2.log
      = w.log ++ [.find db.search.whereConditions db.search.limit db.search.offset] := by
  unfold DB.Find
  dsimp only
  split
  · rfl
  · split <;> rfl

theorem Find_records (db : DB) (out : Ref) (w : SQLWorld) :
    (db.Find out w).2.records = w.records ∧ (db.Find out w).2.faults = w.faults.tail := by
  unfold DB.Find
  dsimp only
  split
  · exact ⟨rfl, rfl⟩
  · split <;> exact ⟨rfl, rfl⟩

theorem Find_ok (db : DB) (out : Ref) (w : SQLWorld) (hf : w.fault 0 = none)
    (hv : condsValid w.columns db.search.whereConditions = true) :
    db.Find out w
      = ({ db with Value := some out },
         { columns := w.columns, records := w.records, faults := w.faults.tail,
           log := w.log ++ [.find db.search.whereConditions db.search.limit db.search.offset],
           heap := fun r => if r = out then
             sqlWindow db.search.limit db.search.offset
               (sqlMatching db.search.whereConditions w.records) else w.heap r }) := by
  unfold DB.Find
  simp only [World.request, World.store, hf, hv, if_true]

theorem Find_Error_none (db : DB) (out : Ref) (w : SQLWorld)
    (h : (db.Find out w).1.Error = none) :
    db.Error = none ∧ w.fault 0 = none
      ∧ condsValid w.columns db.search.whereConditions = true := by
  unfold DB.Find at h
  dsimp only at h
  split at h
  · exact absurd h (AddError_Error_ne_none _ _)
  · rename_i hf
    split at h
    · rename_i hv
      exact ⟨h, hf, hv⟩
    · exact absurd h (AddError_Error_ne_none _ _)

theorem Count_log (db : DB) (v : Int) (w : SQLWorld) :
    (db.Count v w).2.2.log
      = w.log ++ [.count db.search.whereConditions db.search.limit db.search.offset] := by
  unfold DB.Count
  dsimp only
  split
  · rfl
  · split
    · split <;> rfl
    · rfl

theorem Count_Error_none (db : DB) (v : Int) (w : SQLWorld)
    (h : (db.Count v w).1.Error = none) :
    db.Error = none ∧ w.fault 0 = none
      ∧ condsValid w.columns db.search.whereConditions = true := by
  unfold DB.Count at h
  dsimp only at h
  split at h
  · exact absurd h (AddError_Error_ne_none _ _)
  · rename_i hf
    split at h
    · rename_i hv
      split at h
      · exact ⟨h, hf, hv⟩
      · exact absurd h (AddError_Error_ne_none _ _)
    · exact absurd h (AddError_Error_ne_none _ _)

theorem sqlWindow_unset {α : Type} (rows : List α) : sqlWindow (-1) (-1) rows = rows := by
  simp [sqlWindow]

theorem Count_ok (db : DB) (v : Int) (w : SQLWorld) (hf : w.fault 0 = none)
    (hv : condsValid w.columns db.search.whereConditions = true)
    (hl : db.search.limit = -1) (ho : db.search.offset = -1) :
    db.Count v w
      = (db, ((sqlMatching db.search.whereConditions w.records).length : Int),
         { columns := w.columns, records := w.records, faults := w.faults.tail,
           log := w.log ++ [.count db.search.whereConditions (-1) (-1)],
           heap := w.heap }) := by
  unfold DB.Count
  simp only [World.request, hf, hv, hl, ho, sqlWindow_unset, if_true]

theorem fault_of_tail {Req : Type} (w w2 : World Req) (h : w2.faults = w.faults.tail) (i : Nat) :
    w2.fault i = w.fault (i + 1) := by
  unfold World.fault
  rw [h]
  cases w.faults <;> simp

theorem GORM_PaginateOffset_ok (s : GORMStore) (limit offset : Int) (w : SQLWorld)
    (h0 : s.db.Error = none) (hv : condsValid w.columns s.db.search.whereConditions = true)
    (hf1 : w.fault 0 = none) (hf2 : w.fault 1 = none) :
    s.PaginateOffset limit offset w
      = ((((sqlMatching s.db.search.whereConditions w.records).length : Int), none), s,
          offsetWorld s limit offset w) := by
  have hf2' : ∀ (r : List Record) (l : List SQLRequest) (hp : Ref → List Record),
      World.fault
        ({ columns := w.columns, records := r, faults := w.faults.tail, log := l, heap := hp } :
          SQLWorld) 0
        = none := by
    intro r l hp
    rw [fault_of_tail w _ rfl]
    exact hf2
  unfold GORMStore.PaginateOffset DB.Find DB.Count
  simp [World.request, World.store, DB.Limit, DB.Offset, hf1, hf2', hv, h0, sqlWindow_unset,
    offsetWorld]

theorem GORM_PaginateOffset_success (s : GORMStore) (limit offset : Int) (w : SQLWorld)
    (h : (s.PaginateOffset limit offset w).1.2 = none) :
    s.db.Error = none ∧ condsValid w.columns s.db.search.whereConditions = true
      ∧ w.fault 0 = none ∧ w.fault 1 = none := by
  unfold GORMStore.PaginateOffset at h
  dsimp only at h
  split at h
  · simp at h
  · rename_i hc
    obtain ⟨hq, hf2, _⟩ := Count_Error_none _ _ _ hc
    obtain ⟨h0, hf1, hv⟩ := Find_Error_none _ _ _ hq
    refine ⟨h0, hv, hf1, ?_⟩
    rw [fault_of_tail w _ (Find_records _ _ _).2] at hf2
    exact hf2

theorem sqlWindow_nonneg {α : Type} (limit offset : Int) (rows : List α)
    (hl : 0 ≤ limit) (ho : 0 ≤ offset) :
    sqlWindow limit offset rows = (rows.drop offset.toNat).take limit.toNat := by
  simp [sqlWindow, hl, ho]

theorem sqlWindow_length_le {α : Type} (limit offset : Int) (rows : List α) (hl : 0 ≤ limit) :
    ((sqlWindow limit offset rows).length : Int) ≤ limit := by
  unfold sqlWindow
  simp only [hl, if_true]
  have : ∀ l : List α, ((l.take limit.toNat).length : Int) ≤ limit := by
    intro l
    have h1 : (l.take limit.toNat).length ≤ limit.toNat := List.length_take_le _ _
    have h2 : ((limit.toNat : Nat) : Int) = limit := Int.toNat_of_nonneg hl
    omega
  exact this _

theorem window_length {α : Type} (limit offset : Int) (rows : List α)
    (hl : 0 ≤ limit) (ho : 0 ≤ offset) :
    (((rows.drop offset.toNat).take limit.toNat).length : Int)
      = min limit (max ((rows.length : Int) - offset) 0) := by
  have h1 : ((limit.toNat : Nat) : Int) = limit := Int.toNat_of_nonneg hl
  have h2 : ((offset.toNat : Nat) : Int) = offset := Int.toNat_of_nonneg ho
  rw [List.length_take, List.length_drop]
  omega

theorem mgoWindow_length_le {α : Type} (limit skip : Int) (docs : List α) (hl : 0 < limit) :
    ((mgoWindow limit skip docs).length : Int) ≤ limit := by
  unfold mgoWindow
  have hne : limit ≠ 0 := by omega
  simp only [hne, if_false]
  have h1 : ((docs.drop skip.toNat).take limit.natAbs).length ≤ limit.natAbs :=
    List.length_take_le _ _
  omega

theorem mgoWindow_pos {α : Type} (limit : Int) (docs : List α) (hl : 0 < limit) :
    mgoWindow limit 0 docs = docs.take limit.toNat := by
  unfold mgoWindow
  have hne : limit ≠ 0 := by omega
  have : limit.natAbs = limit.toNat := by omega
  simp [hne, this]

theorem mgoWindow_zero {α : Type} (skip : Int) (docs : List α) :
    mgoWindow 0 skip docs = docs.drop skip.toNat := by
  simp [mgoWindow]

/-! ## Lemmas on the relational adapter's cursor call -/

theorem GORM_PaginateCursor_log (s : GORMStore) (limit cursor : Int) (fieldName : String)
    (reverse : Bool) (w : SQLWorld) :
    (s.PaginateCursor limit cursor fieldName reverse w).2.2.log
      = w.log ++ [.find (s.db.search.whereConditions ++
          [(if reverse then fieldName ++ " < ?" else fieldName ++ " > ?", cursor)]) limit
          s.db.search.offset] := by
  unfold GORMStore.PaginateCursor
  dsimp only
  rw [Find_log]
  cases reverse <;> rfl

theorem GORM_PaginateCursor_success (s : GORMStore) (limit cursor : Int) (fieldName : String)
    (reverse : Bool) (w : SQLWorld)
    (h : (s.PaginateCursor limit cursor fieldName reverse w).1 = none) :
    (s.PaginateCursor limit cursor fieldName reverse w).2.2.heap s.items
      = sqlWindow limit s.db.search.offset
          (sqlMatching (s.db.search.whereConditions ++
            [(if reverse then fieldName ++ " < ?" else fieldName ++ " > ?", cursor)])
            w.records) := by
  unfold GORMStore.PaginateCursor at h ⊢
  dsimp only at h ⊢
  obtain ⟨_, hf, hv⟩ := Find_Error_none _ _ _ h
  rw [Find_ok _ _ _ hf hv]
  cases reverse <;> simp [DB.Where, DB.Limit]

theorem condValid_column_cmp (columns : List String) (f : String) (reverse : Bool) (c : Int)
    (hid : isColumnName f = true) (hcol : f ∈ columns) :
    condValid columns (if reverse then f ++ " < ?" else f ++ " > ?", c) = true := by
  unfold condValid
  cases reverse
  · simp [parseWhere_gt f hid, Expr.args, Expr.columns, Operand.args, Operand.columns, hcol]
  · simp [parseWhere_lt f hid, Expr.args, Expr.columns, Operand.args, Operand.columns, hcol]

theorem GORM_PaginateCursor_ok (s : GORMStore) (limit cursor : Int) (fieldName : String)
    (reverse : Bool) (w : SQLWorld) (h0 : s.db.Error = none)
    (hv : condsValid w.columns s.db.search.whereConditions = true) (hf : w.fault 0 = none)
    (hid : isColumnName fieldName = true) (hcol : fieldName ∈ w.columns) :
    (s.PaginateCursor limit cursor fieldName reverse w).1 = none := by
  have hv2 : condsValid w.columns (s.db.search.whereConditions ++
      [(if reverse then fieldName ++ " < ?" else fieldName ++ " > ?", cursor)]) = true := by
    unfold condsValid at hv ⊢
    simp only [List.all_append, hv, List.all_cons, List.all_nil, Bool.and_true, Bool.true_and]
    exact condValid_column_cmp w.columns fieldName reverse cursor hid hcol
  unfold GORMStore.PaginateCursor
  dsimp only
  cases reverse
  · rw [Find_ok _ _ _ hf hv2]
    exact h0
  · rw [Find_ok _ _ _ hf hv2]
    exact h0

theorem BsonM_get_set_same (f : BsonM) (k : String) (v : BsonValue) :
    (f.set k v).get k = some v := by
  simp [BsonM.set, BsonM.get, List.lookup]

theorem lookup_filter_ne (f : BsonM) (k k2 : String) (h : k2 ≠ k) :
    List.lookup k2 (f.filter (fun e => e.1 ≠ k)) = List.lookup k2 f := by
  induction f with
  | nil => rfl
  | cons e es ih =>
    obtain ⟨a, b⟩ := e
    by_cases hak : a = k
    · subst hak
      have hne : (k2 == a) = false := by simpa using h
      have hf : List.filter (fun e : String × BsonValue => decide (e.1 ≠ a)) ((a, b) :: es)
          = List.filter (fun e : String × BsonValue => decide (e.1 ≠ a)) es := by
        simp [List.filter]
      rw [hf, ih]
      simp [List.lookup, hne]
    · simp only [List.filter, ne_eq, hak, not_false_eq_true, decide_True, List.lookup, ih]

theorem BsonM_get_set_other (f : BsonM) (k k2 : String) (v : BsonValue) (h : k2 ≠ k) :
    (f.set k v).get k2 = f.get k2 := by
  have hne : (k2 == k) = false := by simpa using h
  simp only [BsonM.set, BsonM.get, List.lookup, hne]
  exact lookup_filter_ne f k k2 h

theorem filter_ne_of_lookup_none (f : BsonM) (k : String) (h : List.lookup k f = none) :
    f.filter (fun e => e.1 ≠ k) = f := by
  induction f with
  | nil => rfl
  | cons e es ih =>
    obtain ⟨a, b⟩ := e
    by_cases hak : a = k
    · subst hak
      simp [List.lookup] at h
    · have hne : (k == a) = false := by simpa using fun h2 : k = a => hak h2.symm
      simp only [List.lookup, hne] at h
      simp only [List.filter, ne_eq, hak, not_false_eq_true, decide_True, ih h]

theorem BsonM_set_fresh (f : BsonM) (k : String) (v : BsonValue) (h : f.get k = none) :
    f.set k v = (k, v) :: f := by
  unfold BsonM.set
  rw [filter_ne_of_lookup_none f k h]

theorem matchesFilter_set_fresh (f : BsonM) (k : String) (v : BsonValue) (r : Record)
    (h : f.get k = none) :
    matchesFilter (some (f.set k v)) r = (valueMatches r k v && matchesFilter (some f) r) := by
  rw [BsonM_set_fresh f k v h]
  simp [matchesFilter]

theorem valueMatches_gt (r : Record) (k : String) (c : Int) :
    valueMatches r k (.doc [("$gt", c)]) = true ↔ ∃ v, r.field k = some v ∧ c < v := by
  unfold valueMatches
  cases hv : r.field k with
  | none => simp
  | some v => simp [opHolds]

theorem valueMatches_lt (r : Record) (k : String) (c : Int) :
    valueMatches r k (.doc [("$lt", c)]) = true ↔ ∃ v, r.field k = some v ∧ v < c := by
  unfold valueMatches
  cases hv : r.field k with
  | none => simp
  | some v => simp [opHolds]

/-! ## Lemmas on the document-store adapter -/

theorem MGO_offset_error (m : MGOStore) (limit offset : Int) (w : MgoWorld) :
    (m.PaginateOffset limit offset w).1.2 = (w.fault 1).map GoError.err := by
  have h1 : ∀ (q : Query) (w1 : MgoWorld), (q.Count w1).2.faults = w1.faults.tail := by
    intro q w1
    unfold Query.Count
    dsimp only
    split <;> rfl
  have h2 : ∀ (q : Query) (out : Ref) (w1 : MgoWorld),
      (q.All out w1).1 = (w1.fault 0).map GoError.err := by
    intro q out w1
    unfold Query.All
    dsimp only [World.request]
    split <;> rename_i hf <;> simp [hf]
  unfold MGOStore.PaginateOffset
  dsimp only
  rw [h2, fault_of_tail w _ (h1 _ _)]

theorem mgoWindow_unset {α : Type} (docs : List α) : mgoWindow 0 0 docs = docs := by
  simp [mgoWindow]

theorem MGO_offset_count (m : MGOStore) (limit offset : Int) (w : MgoWorld)
    (hf : w.fault 0 = none) :
    (m.PaginateOffset limit offset w).1.1 = ((mgoMatching m.filter w.records).length : Int) := by
  unfold MGOStore.PaginateOffset Query.Count
  simp [World.request, hf, Collection.Find, mgoWindow_unset]

theorem MGO_offset_count_failed (m : MGOStore) (limit offset : Int) (w : MgoWorld) (msg : String)
    (hf : w.fault 0 = some msg) :
    (m.PaginateOffset limit offset w).1.1 = 0 := by
  unfold MGOStore.PaginateOffset Query.Count
  simp [World.request, hf]

theorem MGO_offset_heap (m : MGOStore) (limit offset : Int) (w : MgoWorld)
    (h : (m.PaginateOffset limit offset w).1.2 = none) :
    (m.PaginateOffset limit offset w).2.2.heap m.items
      = mgoWindow limit offset (mgoMatching m.filter w.records) := by
  have h1 : ∀ (q : Query) (w1 : MgoWorld), (q.Count w1).2.records = w1.records := by
    intro q w1
    unfold Query.Count
    dsimp only
    split <;> rfl
  unfold MGOStore.PaginateOffset at h ⊢
  dsimp only at h ⊢
  unfold Query.All at h ⊢
  dsimp only at h ⊢
  split
  · rename_i hf
    simp [hf] at h
  · simp [World.store, World.request, h1, Query.Skip, Query.Limit, Collection.Find]

theorem MGO_cursor_eq (m : MGOStore) (limit cursor : Int) (fieldName : String) (reverse : Bool)
    (w : MgoWorld) (f : BsonM) (hm : m.filter = some f) :
    ∃ w2 : MgoWorld,
      m.PaginateCursor limit cursor fieldName reverse w
        = some ((w.fault 0).map GoError.err,
            { m with filter := some (f.set fieldName
                (.doc [(if reverse then "$lt" else "$gt", cursor)])) }, w2)
      ∧ w2.records = w.records
      ∧ w2.log = w.log ++ [.find (some (f.set fieldName
                (.doc [(if reverse then "$lt" else "$gt", cursor)]))) limit 0]
      ∧ (w.fault 0 = none → w2.heap m.items
          = mgoWindow limit 0 (mgoMatching (some (f.set fieldName
                (.doc [(if reverse then "$lt" else "$gt", cursor)]))) w.records)) := by
  unfold MGOStore.PaginateCursor
  simp only [hm]
  unfold Query.All
  dsimp only [World.request]
  cases hf : w.fault 0 with
  | none =>
    refine ⟨_, rfl, rfl, rfl, fun _ => ?_⟩
    simp [World.store, Query.Limit, Collection.Find]
  | some msg =>
    exact ⟨_, rfl, rfl, rfl, fun h => by simp at h⟩

theorem MGO_cursor_nil (m : MGOStore) (limit cursor : Int) (fieldName : String) (reverse : Bool)
    (w : MgoWorld) (hm : m.filter = none) :
    m.PaginateCursor limit cursor fieldName reverse w = none := by
  unfold MGOStore.PaginateCursor
  simp only [hm]

/-! ## Offset pagination: page size and total count (C1) -/

/-- C1, as stated, fails on the mongo adapter at the boundary `limit = 0`: on a
collection of five documents with the empty filter, `PaginateOffset(0, 0)`
succeeds and writes all five documents, more than `limit`. -/
theorem C1_limit_zero_counterexample :
    (exampleMGOStore.PaginateOffset 0 0 (exampleMgoWorld 5 [])).1 = (5, none)
    ∧ ((exampleMGOStore.PaginateOffset 0 0 (exampleMgoWorld 5 [])).2.2.heap
        exampleMGOStore.items).length = 5
    ∧ ¬ ((((exampleMGOStore.PaginateOffset 0 0 (exampleMgoWorld 5 [])).2.2.heap
        exampleMGOStore.items).length : Int) ≤ 0) := by
  decide

/-- C1 (amended): for `limit ≥ 0` (and every offset) a successful
`GORMStore.PaginateOffset` writes at most `limit` records and returns the
number of rows matching the handle's conditions, which does not depend on
`limit` or `offset`. A successful `MGOStore.PaginateOffset` writes at most
`limit` records when `limit > 0`; with `limit = 0` no limit is applied and
every matching document from `offset` on is written. Whenever its count
request does not fail, the count it returns is the number of documents
matching the filter, which does not depend on `limit` or `offset`. -/
theorem C1_offset_page_bounded (s : GORMStore) (m : MGOStore) (limit offset : Int)
    (ws : SQLWorld) (wm : MgoWorld) (hl : 0 ≤ limit) :
    ((s.PaginateOffset limit offset ws).1.2 = none →
      (((s.PaginateOffset limit offset ws).2.2.heap s.items).length : Int) ≤ limit
      ∧ (s.PaginateOffset limit offset ws).1.1
          = ((sqlMatching s.db.search.whereConditions ws.records).length : Int))
    ∧ ((m.PaginateOffset limit offset wm).1.2 = none → 0 < limit →
      (((m.PaginateOffset limit offset wm).2.2.heap m.items).length : Int) ≤ limit)
    ∧ ((m.PaginateOffset limit offset wm).1.2 = none → limit = 0 →
      (m.PaginateOffset limit offset wm).2.2.heap m.items
        = (mgoMatching m.filter wm.records).drop offset.toNat)
    ∧ (wm.fault 0 = none →
      (m.PaginateOffset limit offset wm).1.1
        = ((mgoMatching m.filter wm.records).length : Int)) := by
  refine ⟨fun h => ?_, fun h hpos => ?_, fun h hz => ?_, fun hf => ?_⟩
  · obtain ⟨h0, hv, hf1, hf2⟩ := GORM_PaginateOffset_success s limit offset ws h
    rw [GORM_PaginateOffset_ok s limit offset ws h0 hv hf1 hf2]
    refine ⟨?_, rfl⟩
    simp only [offsetWorld, if_true]
    exact sqlWindow_length_le limit offset _ hl
  · rw [MGO_offset_heap m limit offset wm h]
    exact mgoWindow_length_le limit offset _ hpos
  · rw [MGO_offset_heap m limit offset wm h, hz, mgoWindow_zero]
  · exact MGO_offset_count m limit offset wm hf

/-- Witness for C1 (amended): pages of size 10 at offset 20 over 25
records, on both adapters. -/
theorem C1_offset_page_bounded_witness :
    (((exampleGORMStore.PaginateOffset 10 20 (exampleSQLWorld 25 [])).2.2.heap
        exampleGORMStore.items).length : Int) ≤ 10
    ∧ (exampleGORMStore.PaginateOffset 10 20 (exampleSQLWorld 25 [])).1.1 = 25
    ∧ (((exampleMGOStore.PaginateOffset 10 20 (exampleMgoWorld 25 [])).2.2.heap
        exampleMGOStore.items).length : Int) ≤ 10
    ∧ (exampleMGOStore.PaginateOffset 10 20 (exampleMgoWorld 25 [])).1.1 = 25 :=
  have h := C1_offset_page_bounded exampleGORMStore exampleMGOStore 10 20
    (exampleSQLWorld 25 []) (exampleMgoWorld 25 []) (by decide)
  ⟨(h.1 (by decide)).1, (h.1 (by decide)).2.trans (by decide),
    h.2.1 (by decide) (by decide), (h.2.2.2 (by decide)).trans (by decide)⟩

/-! ## Cursor pagination: strict comparison with the cursor (C2) -/

/-- The model database rejects a condition on a column the table does not have
and a text outside the fragment: the call fails and nothing is written. -/
theorem cursor_field_rejected :
    (exampleGORMStore.PaginateCursor 2 2 "name" false (exampleSQLWorld 5 [])).1
        = some (.err sqlRejected)
    ∧ (exampleGORMStore.PaginateCursor 2 2 "name" false (exampleSQLWorld 5 [])).2.2.heap
          exampleGORMStore.items = []
    ∧ (exampleGORMStore.PaginateCursor 2 2 "id;" false (exampleSQLWorld 5 [])).1
        = some (.err sqlRejected) := by
  decide

/-- C3 fails on `MGOStore.PaginateOffset`: when the count request fails with
"count failed" and the find request succeeds, the call returns total count 0
with a nil error (and still writes the page), because the error of
`q.Count()` is discarded. -/
theorem C3_count_error_dropped :
    (exampleMgoWorld 5 [some "count failed"]).fault 0 = some "count failed"
    ∧ (exampleMGOStore.PaginateOffset 2 0 (exampleMgoWorld 5 [some "count failed"])).1
        = (0, none)
    ∧ (exampleMGOStore.PaginateOffset 2 0 (exampleMgoWorld 5 [some "count failed"])).2.2.heap
        exampleMGOStore.items = [[("id", 1)], [("id", 2)]] := by
  decide

/-- The store failures that are reported: a failing find or count (one of the
two) of `GORMStore.PaginateOffset` on a handle without earlier error, a failing
find of `GORMStore.PaginateCursor`, and a failing find of either mongo call are
returned as they are. -/
theorem store_error_returned (s : GORMStore) (m : MGOStore) (f : BsonM) (limit offset cursor : Int)
    (fieldName : String) (reverse : Bool) (ws : SQLWorld) (wm : MgoWorld) (msg : String)
    (h0 : s.db.Error = none) (hv : condsValid ws.columns s.db.search.whereConditions = true)
    (hm : m.filter = some f) :
    (ws.fault 0 = some msg → ws.fault 1 = none →
      (s.PaginateOffset limit offset ws).1.2 = some (.err msg))
    ∧ (ws.fault 0 = none → ws.fault 1 = some msg →
      (s.PaginateOffset limit offset ws).1.2 = some (.err msg))
    ∧ (ws.fault 0 = some msg →
      (s.PaginateCursor limit cursor fieldName reverse ws).1 = some (.err msg))
    ∧ (wm.fault 1 = some msg → (m.PaginateOffset limit offset wm).1.2 = some (.err msg))
    ∧ (wm.fault 0 = some msg →
      ∃ m2 w2, m.PaginateCursor limit cursor fieldName reverse wm
        = some (some (.err msg), m2, w2)) := by
  have hf2' : ∀ (o : Option String), ws.fault 1 = o →
      ∀ (r : List Record) (l : List SQLRequest) (hp : Ref → List Record),
      World.fault
        ({ columns := ws.columns, records := r, faults := ws.faults.tail, log := l, heap := hp } :
          SQLWorld) 0
        = o := by
    intro o ho r l hp
    rw [fault_of_tail ws _ rfl]
    exact ho
  refine ⟨fun h1 h2 => ?_, fun h1 h2 => ?_, fun h1 => ?_, fun h1 => ?_, fun h1 => ?_⟩
  · unfold GORMStore.PaginateOffset DB.Find DB.Count
    simp [World.request, World.store, DB.Limit, DB.Offset, h1, hf2' _ h2, hv, h0,
      sqlWindow_unset, DB.AddError, GoError.toList]
  · unfold GORMStore.PaginateOffset DB.Find DB.Count
    simp [World.request, World.store, DB.Limit, DB.Offset, h1, hf2' _ h2, hv, h0,
      sqlWindow_unset, DB.AddError, GoError.toList]
  · unfold GORMStore.PaginateCursor DB.Find
    cases reverse <;>
      simp [World.request, DB.Limit, DB.Where, h1, h0, DB.AddError, GoError.toList]
  · rw [MGO_offset_error, h1]
    rfl
  · obtain ⟨w2, he, _⟩ := MGO_cursor_eq m limit cursor fieldName reverse wm f hm
    exact ⟨_, w2, by rw [he, h1]; rfl⟩

/-! ## The destination reference (C4) -/

theorem GORM_call_store (s : GORMStore) (c : Call) (w : SQLWorld) : (s.call c w).1 = s := by
  cases c with
  | offset limit offset =>
    unfold GORMStore.call GORMStore.PaginateOffset
    dsimp only
    split <;> rfl
  | cursor limit cursor fieldName reverse => rfl

theorem GORM_run_store (s : GORMStore) (w : SQLWorld) (calls : List Call) :
    (s.run w calls).1 = s := by
  induction calls generalizing w with
  | nil => rfl
  | cons c cs ih =>
    unfold GORMStore.run
    rw [GORM_call_store s c w]
    exact ih _

theorem MGO_call_frame (m : MGOStore) (c : Call) (w : MgoWorld) (r : MGOStore × MgoWorld)
    (h : m.call c w = some r) :
    r.1.items = m.items ∧ r.1.collection = m.collection ∧ (m.filter ≠ none → r.1.filter ≠ none) := by
  cases c with
  | offset limit offset =>
    simp only [MGOStore.call, Option.some.injEq] at h
    subst h
    exact ⟨rfl, rfl, fun hn => hn⟩
  | cursor limit cursor fieldName reverse =>
    cases hm : m.filter with
    | none =>
      simp [MGOStore.call, MGO_cursor_nil m limit cursor fieldName reverse w hm] at h
    | some f =>
      obtain ⟨w2, he, _⟩ := MGO_cursor_eq m limit cursor fieldName reverse w f hm
      simp only [MGOStore.call, he, Option.some.injEq] at h
      subst h
      exact ⟨rfl, rfl, fun _ => by simp⟩

theorem MGO_call_some (m : MGOStore) (c : Call) (w : MgoWorld) (hm : m.filter ≠ none) :
    ∃ r, m.call c w = some r := by
  cases c with
  | offset limit offset => exact ⟨_, rfl⟩
  | cursor limit cursor fieldName reverse =>
    cases hf : m.filter with
    | none => exact absurd hf hm
    | some f =>
      obtain ⟨w2, he, _⟩ := MGO_cursor_eq m limit cursor fieldName reverse w f hf
      refine ⟨({ m with filter := some (f.set fieldName
        (.doc [(if reverse then "$lt" else "$gt", cursor)])) }, w2), ?_⟩
      simp only [MGOStore.call, he]

theorem MGO_run_frame (m : MGOStore) (w : MgoWorld) (calls : List Call)
    (r : MGOStore × MgoWorld) (h : m.run w calls = some r) :
    r.1.items = m.items ∧ r.1.collection = m.collection := by
  induction calls generalizing m w with
  | nil =>
    simp only [MGOStore.run, Option.some.injEq] at h
    subst h
    exact ⟨rfl, rfl⟩
  | cons c cs ih =>
    unfold MGOStore.run at h
    cases hc : m.call c w with
    | none => simp [hc] at h
    | some r1 =>
      simp only [hc] at h
      obtain ⟨h1, h2, _⟩ := MGO_call_frame m c w r1 hc
      obtain ⟨h3, h4⟩ := ih r1.1 r1.2 h
      exact ⟨h3.trans h1, h4.trans h2⟩

theorem MGO_run_some (m : MGOStore) (w : MgoWorld) (calls : List Call) (hm : m.filter ≠ none) :
    ∃ r, m.run w calls = some r := by
  induction calls generalizing m w with
  | nil => exact ⟨_, rfl⟩
  | cons c cs ih =>
    obtain ⟨r1, hc⟩ := MGO_call_some m c w hm
    obtain ⟨r, hr⟩ := ih r1.1 r1.2 ((MGO_call_frame m c w r1 hc).2.2 hm)
    exact ⟨r, by unfold MGOStore.run; simp only [hc]; exact hr⟩

/-- C4: `GetItems()` returns the destination reference given to the
constructor, right after construction and after any sequence of paginate calls
(on the mongo store: any sequence that runs to its end, which every sequence
does when the filter is a non-nil map); and after a successful paginate call
the container behind `GetItems()` holds exactly the records returned by the
find request of that call. -/
theorem C4_GetItems_passthrough (db : DB) (coll : Collection) (filter : Option BsonM)
    (items : Ref) (calls : List Call) (limit offset cursor : Int) (fieldName : String)
    (reverse : Bool) (ws : SQLWorld) (wm : MgoWorld) :
    (NewGORMStore db items).1.GetItems = items
    ∧ ((NewGORMStore db items).1.run ws calls).1.GetItems = items
    ∧ (NewMGOStore coll items filter).1.GetItems = items
    ∧ (∀ r, (NewMGOStore coll items filter).1.run wm calls = some r → r.1.GetItems = items)
    ∧ (filter ≠ none → ∃ r, (NewMGOStore coll items filter).1.run wm calls = some r)
    ∧ (((NewGORMStore db items).1.PaginateOffset limit offset ws).1.2 = none →
        ((NewGORMStore db items).1.PaginateOffset limit offset ws).2.2.heap
            ((NewGORMStore db items).1.PaginateOffset limit offset ws).2.1.GetItems
          = sqlWindow limit offset (sqlMatching db.search.whereConditions ws.records))
    ∧ (((NewGORMStore db items).1.PaginateCursor limit cursor fieldName reverse ws).1 = none →
        ((NewGORMStore db items).1.PaginateCursor limit cursor fieldName reverse ws).2.2.heap
            ((NewGORMStore db items).1.PaginateCursor limit cursor fieldName reverse ws).2.1.GetItems
          = sqlWindow limit db.search.offset (sqlMatching (db.search.whereConditions ++
              [(if reverse then fieldName ++ " < ?" else fieldName ++ " > ?", cursor)])
              ws.records))
    ∧ (((NewMGOStore coll items filter).1.PaginateOffset limit offset wm).1.2 = none →
        ((NewMGOStore coll items filter).1.PaginateOffset limit offset wm).2.2.heap
            ((NewMGOStore coll items filter).1.PaginateOffset limit offset wm).2.1.GetItems
          = mgoWindow limit offset (mgoMatching filter wm.records))
    ∧ (∀ m2 w2, (NewMGOStore coll items filter).1.PaginateCursor limit cursor fieldName reverse wm
          = some (none, m2, w2) →
        w2.heap m2.GetItems = mgoWindow limit 0 (mgoMatching m2.filter wm.records)) := by
  refine ⟨rfl, ?_, rfl, ?_, ?_, ?_, ?_, ?_, ?_⟩
  · rw [GORM_run_store]
    rfl
  · intro r h
    exact (MGO_run_frame _ wm calls r h).1
  · intro hne
    exact MGO_run_some _ wm calls hne
  · intro h
    obtain ⟨h0, hv, hf1, hf2⟩ := GORM_PaginateOffset_success _ limit offset ws h
    rw [GORM_PaginateOffset_ok _ limit offset ws h0 hv hf1 hf2]
    simp [offsetWorld, GORMStore.GetItems, NewGORMStore]
  · intro h
    exact GORM_PaginateCursor_success _ limit cursor fieldName reverse ws h
  · intro h
    exact MGO_offset_heap _ limit offset wm h
  · intro m2 w2 h
    cases hm : filter with
    | none =>
      subst hm
      rw [MGO_cursor_nil _ limit cursor fieldName reverse wm rfl] at h
      simp at h
    | some f =>
      subst hm
      obtain ⟨w3, he, _, _, hh⟩ :=
        MGO_cursor_eq (NewMGOStore coll items (some f)).1 limit cursor fieldName reverse wm f rfl
      rw [he] at h
      simp only [Option.some.injEq, Prod.mk.injEq] at h
      obtain ⟨hf, hm2, hw⟩ := h
      subst hw hm2
      have hf0 : wm.fault 0 = none := by
        cases hx : wm.fault 0 with
        | none => rfl
        | some msg => rw [hx] at hf; simp at hf
      exact hh hf0

/-- Witness for C4: a mongo store on container 7 after an
offset call and a cursor call, and a successful offset call on a GORM store. -/
theorem C4_GetItems_passthrough_witness :
    (∃ r, exampleMGOStore.run (exampleMgoWorld 5 []) [.offset 2 1, .cursor 2 2 "id" false] = some r
      ∧ r.1.GetItems = 7)
    ∧ (exampleGORMStore.run (exampleSQLWorld 5 []) [.offset 2 1, .cursor 2 2 "id" false]).1.GetItems
        = 7
    ∧ (exampleGORMStore.PaginateOffset 2 1 (exampleSQLWorld 5 [])).2.2.heap
          (exampleGORMStore.PaginateOffset 2 1 (exampleSQLWorld 5 [])).2.1.GetItems
        = [[("id", 2)], [("id", 3)]] :=
  have h := C4_GetItems_passthrough DB.fresh { name := "docs" } (some []) 7
    [.offset 2 1, .cursor 2 2 "id" false] 2 1 2 "id" false (exampleSQLWorld 5 [])
    (exampleMgoWorld 5 [])
  ⟨(h.2.2.2.2.1 (by decide)).elim (fun r hr => ⟨r, hr, h.2.2.2.1 r hr⟩), h.2.1,
    (h.2.2.2.2.2.1 (by decide)).trans (by decide)⟩

/-! ## The relational offset page (C5) -/

/-- C5: on a relational store whose calls do not fail (handle without earlier
error, conditions understood by the database, neither request failing) and
whose query matches `N` rows, `GORMStore.PaginateOffset(limit, offset)` with
`limit ≥ 0` and `offset ≥ 0` returns `(N, nil)` and writes the matching rows at
positions `offset, offset + 1, ...`, `min(limit, max(N - offset, 0))` of them. -/
theorem C5_relational_offset_page (s : GORMStore) (limit offset : Int) (w : SQLWorld)
    (hl : 0 ≤ limit) (ho : 0 ≤ offset) (h0 : s.db.Error = none)
    (hv : condsValid w.columns s.db.search.whereConditions = true)
    (hf1 : w.fault 0 = none) (hf2 : w.fault 1 = none) :
    (s.PaginateOffset limit offset w).1
        = (((sqlMatching s.db.search.whereConditions w.records).length : Int), none)
    ∧ (s.PaginateOffset limit offset w).2.2.heap s.items
        = ((sqlMatching s.db.search.whereConditions w.records).drop offset.toNat).take
            limit.toNat
    ∧ (((s.PaginateOffset limit offset w).2.2.heap s.items).length : Int)
        = min limit
            (max (((sqlMatching s.db.search.whereConditions w.records).length : Int) - offset) 0) := by
  rw [GORM_PaginateOffset_ok s limit offset w h0 hv hf1 hf2]
  refine ⟨rfl, ?_, ?_⟩
  · simp only [offsetWorld, if_true, sqlWindow_nonneg limit offset _ hl ho]
  · simp only [offsetWorld, if_true, sqlWindow_nonneg limit offset _ hl ho]
    exact window_length limit offset _ hl ho

/-- Witness for C5: 25 rows; `PaginateOffset(10, 0)`
gives 10 rows and `PaginateOffset(10, 20)` gives 5 rows, both with total 25. -/
theorem C5_relational_offset_page_witness :
    ((exampleGORMStore.PaginateOffset 10 0 (exampleSQLWorld 25 [])).1 = (25, none)
      ∧ (((exampleGORMStore.PaginateOffset 10 0 (exampleSQLWorld 25 [])).2.2.heap
          exampleGORMStore.items).length : Int) = 10)
    ∧ ((exampleGORMStore.PaginateOffset 10 20 (exampleSQLWorld 25 [])).1 = (25, none)
      ∧ (((exampleGORMStore.PaginateOffset 10 20 (exampleSQLWorld 25 [])).2.2.heap
          exampleGORMStore.items).length : Int) = 5) :=
  have h1 := C5_relational_offset_page exampleGORMStore 10 0 (exampleSQLWorld 25 [])
    (by decide) (by decide) (by decide) (by decide) (by decide) (by decide)
  have h2 := C5_relational_offset_page exampleGORMStore 10 20 (exampleSQLWorld 25 [])
    (by decide) (by decide) (by decide) (by decide) (by decide) (by decide)
  ⟨⟨h1.1.trans (by decide), h1.2.2.trans (by decide)⟩,
    ⟨h2.1.trans (by decide), h2.2.2.trans (by decide)⟩⟩

/-! ## The document-store cursor page (C6) -/

theorem gtCursor_eq (r : Record) (k : String) (c : Int) :
    valueMatches r k (.doc [("$gt", c)]) = gtCursor r k c := by
  unfold valueMatches gtCursor
  cases r.field k with
  | none => rfl
  | some v => simp [opHolds]

/-- C6: on a mongo store whose filter document has no entry under `fieldName`
and whose find request does not fail, `PaginateCursor(limit, cursor,
fieldName, false)` with `limit > 0` succeeds and writes the first `limit`
documents, in the store's order, among those matching the filter with a
`fieldName` value strictly greater than `cursor`. -/
theorem C6_document_cursor_page (m : MGOStore) (f : BsonM) (limit cursor : Int)
    (fieldName : String) (w : MgoWorld) (hm : m.filter = some f)
    (hk : f.get fieldName = none) (hl : 0 < limit) (hf : w.fault 0 = none) :
    ∃ m2 w2, m.PaginateCursor limit cursor fieldName false w = some (none, m2, w2)
      ∧ w2.heap m.items
          = (w.records.filter
              (fun r => matchesFilter (some f) r && gtCursor r fieldName cursor)).take
              limit.toNat := by
  obtain ⟨w2, he, _, _, hh⟩ := MGO_cursor_eq m limit cursor fieldName false w f hm
  refine ⟨_, w2, by rw [he, hf]; rfl, ?_⟩
  rw [hh hf, mgoWindow_pos _ _ hl]
  congr 1
  unfold mgoMatching
  congr 1
  funext r
  have := matchesFilter_set_fresh f fieldName (.doc [("$gt", cursor)]) r hk
  simp only [Bool.false_eq_true, if_false] at this ⊢
  rw [this, gtCursor_eq, Bool.and_comm]

/-- Witness for C6: documents `id = 1..5`, empty filter;
`PaginateCursor(2, 2, "id", false)` writes the documents with `id = 3` and
`id = 4`. -/
theorem C6_document_cursor_page_witness :
    ∃ m2 w2, exampleMGOStore.PaginateCursor 2 2 "id" false (exampleMgoWorld 5 [])
        = some (none, m2, w2)
      ∧ w2.heap exampleMGOStore.items = [[("id", 3)], [("id", 4)]] :=
  (C6_document_cursor_page exampleMGOStore [] 2 2 "id" (exampleMgoWorld 5 []) rfl
    (by decide) (by decide) (by decide)).elim
    (fun m2 h => h.elim (fun w2 hw => ⟨m2, w2, hw.1, hw.2.trans (by decide)⟩))

/-! ## Consecutive cursor calls on one mongo store (C7) -/

/-- C7, as stated, fails when the cursor moves back on the same field: on
documents `id = 1..5` with the empty filter, `PaginateCursor(2, 3, "id", false)`
leaves the filter `{id: {$gt: 3}}` and the following
`PaginateCursor(2, 1, "id", false)` replaces it by `{id: {$gt: 1}}`, which
matches the document `id = 2` that the first filter does not match. -/
theorem C7_same_field_counterexample :
    (exampleMGOStore.run (exampleMgoWorld 5 []) [.cursor 2 3 "id" false]).map
        (fun r => (r.1.filter, r.2.log))
      = some (some [("id", .doc [("$gt", 3)])],
          [.find (some [("id", .doc [("$gt", 3)])]) 2 0])
    ∧ (exampleMGOStore.run (exampleMgoWorld 5 [])
          [.cursor 2 3 "id" false, .cursor 2 1 "id" false]).map
        (fun r => (r.1.filter, r.2.log))
      = some (some [("id", .doc [("$gt", 1)])],
          [.find (some [("id", .doc [("$gt", 3)])]) 2 0,
           .find (some [("id", .doc [("$gt", 1)])]) 2 0])
    ∧ [("id", 2)] ∈ (exampleMgoWorld 5 []).records
    ∧ matchesFilter (some [("id", .doc [("$gt", 1)])]) [("id", 2)] = true
    ∧ matchesFilter (some [("id", .doc [("$gt", 3)])]) [("id", 2)] = false := by
  decide

theorem mem_lookup_ne_none (f : BsonM) (k : String) (v : BsonValue) (h : (k, v) ∈ f) :
    List.lookup k f ≠ none := by
  induction f with
  | nil => simp at h
  | cons e es ih =>
    obtain ⟨a, b⟩ := e
    by_cases hka : k = a
    · subst hka
      simp [List.lookup]
    · have hne : (k == a) = false := by simpa using hka
      simp only [List.lookup, hne]
      rcases List.mem_cons.mp h with h1 | h1
      · exact absurd (congrArg Prod.fst h1) hka
      · exact ih h1

theorem mem_set_same (f : BsonM) (k : String) (v old : BsonValue) (h : (k, old) ∈ f.set k v) :
    old = v := by
  unfold BsonM.set at h
  rcases List.mem_cons.mp h with h1 | h1
  · exact congrArg Prod.snd h1
  · have := (List.mem_filter.mp h1).2
    simp at this

theorem mem_set_other (f : BsonM) (k k2 : String) (v old : BsonValue) (hne : k2 ≠ k)
    (h : (k2, old) ∈ f.set k v) : (k2, old) ∈ f := by
  unfold BsonM.set at h
  rcases List.mem_cons.mp h with h1 | h1
  · exact absurd (congrArg Prod.fst h1) hne
  · exact (List.mem_filter.mp h1).1

/-- Replacing the entry under `k` narrows the filter on record `r` when the new
constraint implies, on `r`, every constraint the filter held under `k`. -/
theorem matchesFilter_set_narrows (g : BsonM) (k : String) (v : BsonValue) (r : Record)
    (himp : ∀ old, (k, old) ∈ g → valueMatches r k v = true → valueMatches r k old = true)
    (h : matchesFilter (some (g.set k v)) r = true) : matchesFilter (some g) r = true := by
  simp only [matchesFilter, BsonM.set, List.all_cons, Bool.and_eq_true, List.all_eq_true,
    List.mem_filter] at h ⊢
  intro e he
  by_cases hk : e.1 = k
  · have hmem : (k, e.2) ∈ g := by
      rw [← hk]
      exact he
    rw [hk]
    exact himp e.2 hmem h.1
  · exact h.2 e ⟨he, by simpa using hk⟩

theorem range_gt_mono (r : Record) (k : String) (c1 c2 : Int) (hc : c1 ≤ c2)
    (h : valueMatches r k (.doc [("$gt", c2)]) = true) :
    valueMatches r k (.doc [("$gt", c1)]) = true := by
  obtain ⟨v, hv, hlt⟩ := (valueMatches_gt r k c2).mp h
  exact (valueMatches_gt r k c1).mpr ⟨v, hv, by omega⟩

theorem range_lt_mono (r : Record) (k : String) (c1 c2 : Int) (hc : c2 ≤ c1)
    (h : valueMatches r k (.doc [("$lt", c2)]) = true) :
    valueMatches r k (.doc [("$lt", c1)]) = true := by
  obtain ⟨v, hv, hlt⟩ := (valueMatches_lt r k c2).mp h
  exact (valueMatches_lt r k c1).mpr ⟨v, hv, by omega⟩

/-- C7 (amended): on a mongo store holding a filter document, two consecutive
`PaginateCursor` calls both run, the find requests they send carry the store's
filter after each call, and every record matched by the second filter is
matched by the first whenever the new range constraint on `f2` implies every
constraint the first call's filter holds under `f2`. This is so in particular
when `f2` is not yet constrained (it differs from `f1` and is not a key of the
original filter), and when both calls use the same field and direction with a
cursor that does not move back (`c1 ≤ c2` forward, `c2 ≤ c1` in reverse). -/
theorem C7_cursor_narrows (m : MGOStore) (f : BsonM) (l c1 c2 : Int) (f1 f2 : String)
    (r1 r2 : Bool) (w : MgoWorld) (hm : m.filter = some f) :
    ∃ e1 m1 w1 e2 m2 w2 g1,
      m.PaginateCursor l c1 f1 r1 w = some (e1, m1, w1)
      ∧ m1.PaginateCursor l c2 f2 r2 w1 = some (e2, m2, w2)
      ∧ w2.log = w.log ++ [.find m1.filter l 0, .find m2.filter l 0]
      ∧ m1.filter = some g1
      ∧ ((∀ old, (f2, old) ∈ g1 → ∀ r : Record,
            valueMatches r f2 (.doc [(if r2 then "$lt" else "$gt", c2)]) = true →
            valueMatches r f2 old = true) →
          ∀ r : Record, matchesFilter m2.filter r = true → matchesFilter m1.filter r = true)
      ∧ (f2 ≠ f1 → f.get f2 = none →
          ∀ r : Record, matchesFilter m2.filter r = true → matchesFilter m1.filter r = true)
      ∧ (f2 = f1 → r1 = false → r2 = false → c1 ≤ c2 →
          ∀ r : Record, matchesFilter m2.filter r = true → matchesFilter m1.filter r = true)
      ∧ (f2 = f1 → r1 = true → r2 = true → c2 ≤ c1 →
          ∀ r : Record, matchesFilter m2.filter r = true → matchesFilter m1.filter r = true) := by
  obtain ⟨w1, he1, _, hlog1, _⟩ := MGO_cursor_eq m l c1 f1 r1 w f hm
  obtain ⟨w2, he2, _, hlog2, _⟩ :=
    MGO_cursor_eq { m with filter := some (f.set f1 (.doc [(if r1 then "$lt" else "$gt", c1)])) }
      l c2 f2 r2 w1 _ rfl
  have key : (∀ old, (f2, old) ∈ f.set f1 (.doc [(if r1 then "$lt" else "$gt", c1)]) →
      ∀ r : Record, valueMatches r f2 (.doc [(if r2 then "$lt" else "$gt", c2)]) = true →
        valueMatches r f2 old = true) →
      ∀ r : Record,
        matchesFilter (some ((f.set f1 (.doc [(if r1 then "$lt" else "$gt", c1)])).set f2
          (.doc [(if r2 then "$lt" else "$gt", c2)]))) r = true →
        matchesFilter (some (f.set f1 (.doc [(if r1 then "$lt" else "$gt", c1)]))) r = true :=
    fun himp r hr => matchesFilter_set_narrows _ f2 _ r (fun old ho => himp old ho r) hr
  refine ⟨_, _, w1, _, _, w2, _, he1, he2, ?_, rfl, key, ?_, ?_, ?_⟩
  · rw [hlog2, hlog1]
    simp
  · intro hne hk
    refine key (fun old ho => ?_)
    exact absurd hk (mem_lookup_ne_none f f2 old (mem_set_other f f1 f2 _ old hne ho))
  · intro hf h1 h2 hc
    subst hf h1 h2
    refine key (fun old ho r hr => ?_)
    rw [mem_set_same f f2 _ old ho]
    exact range_gt_mono r f2 c1 c2 hc hr
  · intro hf h1 h2 hc
    subst hf h1 h2
    refine key (fun old ho r hr => ?_)
    rw [mem_set_same f f2 _ old ho]
    exact range_lt_mono r f2 c1 c2 hc hr

/-- Witness for C7 (amended): from the empty filter, a cursor on `id` advancing
from 1 to 3 narrows, and so does a cursor on `id` followed by a cursor on the
not yet constrained field `age`. -/
theorem C7_cursor_narrows_witness :
    (∃ e1 m1 w1 e2 m2 w2,
      exampleMGOStore.PaginateCursor 2 1 "id" false (exampleMgoWorld 5 []) = some (e1, m1, w1)
      ∧ m1.PaginateCursor 2 3 "id" false w1 = some (e2, m2, w2)
      ∧ ∀ r : Record, matchesFilter m2.filter r = true → matchesFilter m1.filter r = true)
    ∧ (∃ e1 m1 w1 e2 m2 w2,
      exampleMGOStore.PaginateCursor 2 3 "id" false (exampleMgoWorld 5 []) = some (e1, m1, w1)
      ∧ m1.PaginateCursor 2 1 "age" true w1 = some (e2, m2, w2)
      ∧ ∀ r : Record, matchesFilter m2.filter r = true → matchesFilter m1.filter r = true) := by
  constructor
  · obtain ⟨e1, m1, w1, e2, m2, w2, g1, h1, h2, _, _, _, _, h7, _⟩ :=
      C7_cursor_narrows exampleMGOStore [] 2 1 3 "id" "id" false false (exampleMgoWorld 5 []) rfl
    exact ⟨e1, m1, w1, e2, m2, w2, h1, h2, h7 rfl rfl rfl (by decide)⟩
  · obtain ⟨e1, m1, w1, e2, m2, w2, g1, h1, h2, _, _, _, h6, _, _⟩ :=
      C7_cursor_narrows exampleMGOStore [] 2 3 1 "id" "age" false true (exampleMgoWorld 5 []) rfl
    exact ⟨e1, m1, w1, e2, m2, w2, h1, h2, h6 (by decide) (by decide)⟩

/-! ## The filter mutation of the mongo cursor call (C8) -/

/-- C8: on a mongo store holding a filter document `f`, `PaginateCursor` runs
and leaves a filter whose entry under `fieldName` is exactly `{"$gt": cursor}`
(`reverse = false`) or `{"$lt": cursor}` (`reverse = true`), whose other keys
read as in `f`, with the collection handle and the destination reference
unchanged; this holds whatever the outcome of the query, whose error is the
failure of the find request, if any. -/
theorem C8_cursor_mutates_filter (m : MGOStore) (f : BsonM) (limit cursor : Int)
    (fieldName : String) (reverse : Bool) (w : MgoWorld) (hm : m.filter = some f) :
    ∃ m2 w2 f2,
      m.PaginateCursor limit cursor fieldName reverse w
        = some ((w.fault 0).map GoError.err, m2, w2)
      ∧ m2.filter = some f2
      ∧ f2.get fieldName = some (.doc [(if reverse then "$lt" else "$gt", cursor)])
      ∧ (∀ k, k ≠ fieldName → f2.get k = f.get k)
      ∧ m2.collection = m.collection
      ∧ m2.items = m.items := by
  obtain ⟨w2, he, _⟩ := MGO_cursor_eq m limit cursor fieldName reverse w f hm
  exact ⟨_, w2, _, he, rfl, BsonM_get_set_same f fieldName _,
    fun k hk => BsonM_get_set_other f fieldName k _ hk, rfl, rfl⟩

/-- Witness for C8: a store whose filter already
constrains `id` and `age`, and whose find request fails. -/
theorem C8_cursor_mutates_filter_witness :
    ∃ m2 w2 f2,
      (NewMGOStore { name := "docs" } 7 (some [("id", .int 4), ("age", .int 30)])).1.PaginateCursor
          2 2 "id" true (exampleMgoWorld 5 [some "no reachable servers"])
        = some (some (.err "no reachable servers"), m2, w2)
      ∧ m2.filter = some f2
      ∧ f2.get "id" = some (.doc [("$lt", 2)])
      ∧ f2.get "age" = some (.int 30)
      ∧ m2.collection = { name := "docs" }
      ∧ m2.items = 7 :=
  (C8_cursor_mutates_filter
    (NewMGOStore { name := "docs" } 7 (some [("id", .int 4), ("age", .int 30)])).1
    [("id", .int 4), ("age", .int 30)] 2 2 "id" true
    (exampleMgoWorld 5 [some "no reachable servers"]) rfl).elim
    (fun m2 h => h.elim (fun w2 h => h.elim (fun f2 h =>
      ⟨m2, w2, f2, h.1, h.2.1, h.2.2.1, (h.2.2.2.1 "age" (by decide)).trans (by decide),
        h.2.2.2.2.1, h.2.2.2.2.2⟩)))

/-! ## Requests of the relational adapter (C9, C10) -/

theorem GORM_PaginateOffset_log (s : GORMStore) (limit offset : Int) (w : SQLWorld) :
    (s.PaginateOffset limit offset w).2.2.log
      = w.log ++ [.find s.db.search.whereConditions limit offset,
                  .count s.db.search.whereConditions (-1) (-1)] := by
  have h : (s.PaginateOffset limit offset w).2.2
      = ((((((s.db.Limit limit).Offset offset).Find s.items w).1.Limit (-1)).Offset (-1)).Count 0
          (((s.db.Limit limit).Offset offset).Find s.items w).2).2.2 := by
    unfold GORMStore.PaginateOffset
    dsimp only
    split <;> rfl
  rw [h, Count_log, Find_log]
  simp [DB.Limit, DB.Offset, Find_search]

/-- The requests a call sends, as a function of the handle alone. -/
theorem GORM_call_log (s : GORMStore) (c : Call) (w : SQLWorld) :
    (s.call c w).2.log = w.log ++ ((s.call c { w with log := [] }).2.log) := by
  cases c with
  | offset limit offset =>
    simp only [GORMStore.call, GORM_PaginateOffset_log, List.nil_append]
  | cursor limit cursor fieldName reverse =>
    simp only [GORMStore.call, GORM_PaginateCursor_log, List.nil_append]

theorem GORM_call_issued (s : GORMStore) (c : Call) (w1 w2 : SQLWorld) :
    (s.call c w1).2.log.drop w1.log.length = (s.call c w2).2.log.drop w2.log.length := by
  have e1 : (s.call c w1).2.log.drop w1.log.length
      = (s.call c { w1 with log := [] }).2.log := by
    rw [GORM_call_log s c w1, List.drop_left]
  have e2 : (s.call c w2).2.log.drop w2.log.length
      = (s.call c { w2 with log := [] }).2.log := by
    rw [GORM_call_log s c w2, List.drop_left]
  rw [e1, e2]
  cases c with
  | offset limit offset =>
    simp only [GORMStore.call, GORM_PaginateOffset_log]
  | cursor limit cursor fieldName reverse =>
    simp only [GORMStore.call, GORM_PaginateCursor_log]

/-- C9: `GORMStore.PaginateOffset` sends exactly two requests, in this order: a
find with the given limit and offset, then a count with limit and offset reset
to the sentinel `-1`; neither paginate method changes the fields of the store;
hence after any sequence of calls the store equals a freshly constructed one
and a further call sends the requests it would send on a fresh store. -/
theorem C9_no_constraint_leak (s : GORMStore) (limit offset cursor : Int) (fieldName : String)
    (reverse : Bool) (calls : List Call) (c : Call) (w w1 w2 : SQLWorld) :
    (s.PaginateOffset limit offset w).2.2.log
        = w.log ++ [.find s.db.search.whereConditions limit offset,
                    .count s.db.search.whereConditions (-1) (-1)]
    ∧ (s.PaginateOffset limit offset w).2.1 = s
    ∧ (s.PaginateCursor limit cursor fieldName reverse w).2.1 = s
    ∧ (s.run w calls).1 = (NewGORMStore s.db s.items).1
    ∧ ((s.run w calls).1.call c w1).2.log.drop w1.log.length
        = ((NewGORMStore s.db s.items).1.call c w2).2.log.drop w2.log.length := by
  refine ⟨GORM_PaginateOffset_log s limit offset w, ?_, rfl, ?_, ?_⟩
  · exact GORM_call_store s (.offset limit offset) w
  · rw [GORM_run_store]
    rfl
  · rw [GORM_run_store]
    exact GORM_call_issued s c w1 w2

/-- C10: the only request of `GORMStore.PaginateCursor` is a find whose added
condition has the text `fieldName ++ " > ?"` (`reverse = false`) or
`fieldName ++ " < ?"` (`reverse = true`), for every string `fieldName`, with
`cursor` as its bound argument; the condition texts of the requests are the
same for any two cursors. -/
theorem C10_cursor_clause_text (s : GORMStore) (limit c1 c2 : Int) (fieldName : String)
    (reverse : Bool) (w : SQLWorld) :
    (s.PaginateCursor limit c1 fieldName reverse w).2.2.log
        = w.log ++ [.find (s.db.search.whereConditions ++
            [(if reverse then fieldName ++ " < ?" else fieldName ++ " > ?", c1)]) limit
            s.db.search.offset]
    ∧ (s.PaginateCursor limit c1 fieldName reverse w).2.2.log.map SQLRequest.texts
        = (s.PaginateCursor limit c2 fieldName reverse w).2.2.log.map SQLRequest.texts := by
  refine ⟨GORM_PaginateCursor_log s limit c1 fieldName reverse w, ?_⟩
  rw [GORM_PaginateCursor_log, GORM_PaginateCursor_log]
  simp [SQLRequest.texts]

end Paging
